import Mathlib

/-!
# Verification of the ScoreWise cricket scoring engine

Shallow embedding of the rules/state engine of the ScoreWise cricket
scoring application (`src/services/cricketEngine.ts`, the `CricketEngine`
class) together with the undo handler of the live-scoring component
(`handleUndo` in `LiveScorer.tsx`).

Modelling conventions.
* TypeScript `number` fields that only ever hold non-negative integers
  (scores, counters, run values, ids) are modelled as `Nat`.
* Performance scores (which use fractional constants such as `1.5`) are
  modelled as exact rationals `ℚ`; JavaScript double arithmetic is
  idealised as exact arithmetic.
* Nullable references (`Player | null`, optional `fielder`) are `Option`.
* The optional `firstInningsScore` field is modelled as a `Nat`; the
  JavaScript truthiness test `match.firstInningsScore && …` treats both
  `undefined` and `0` as false, which the model captures as `≠ 0`.
* Fields the embedded functions never read (display names, commentary
  strings, timestamps) are omitted from the structures.
* `Array.prototype.sort` (stable per the ECMAScript specification) is
  modelled by a stable insertion sort.
-/

namespace Cricket

/-- Batting-related cumulative counters of `PlayerStats`
(`src/types/cricket.ts`); restricted to the fields updated by the
batting-statistics section of `CricketEngine.updatePlayerStats`. -/
structure PlayerStats where
  matchesPlayed : Nat
  runsScored : Nat
  ballsFaced : Nat
  fours : Nat
  sixes : Nat
  dotBalls : Nat
  timesOut : Nat
  ducks : Nat
  fifties : Nat
  hundreds : Nat
  highestScore : Nat
  deriving DecidableEq, Repr

/-- A participant; `id` is the stable identity used by every engine
comparison, `stats` the cumulative career counters. -/
structure Player where
  id : Nat
  stats : PlayerStats
  deriving DecidableEq, Repr

/-- Kind of dismissal recorded on a delivery. -/
inductive WicketType where
  | bowled
  | caught
  | lbw
  | run_out
  | stumped
  | hit_wicket
  deriving DecidableEq, Repr

/-- One recorded delivery (`Ball` in `src/types/cricket.ts`). -/
structure Ball where
  id : Nat
  overNumber : Nat
  runs : Nat
  striker : Player
  bowler : Player
  isWide : Bool
  isNoBall : Bool
  isBye : Bool
  isLegBye : Bool
  isWicket : Bool
  wicketType : Option WicketType
  fielder : Option Player
  deriving DecidableEq, Repr

/-- Extras breakdown of a team innings. -/
structure Extras where
  wides : Nat
  noBalls : Nat
  byes : Nat
  legByes : Nat
  deriving DecidableEq, Repr

/-- State of one team during its innings (`Team` in `src/types/cricket.ts`):
`overs` is the completed-overs count and `balls` the balls-into-the-
current-over count. -/
structure Team where
  players : List Player
  score : Nat
  wickets : Nat
  overs : Nat
  balls : Nat
  extras : Extras
  deriving DecidableEq, Repr

/-- The root match aggregate (`Match` in `src/types/cricket.ts`),
restricted to the fields read or written by the embedded engine
functions.  `balls` is the append-only ball log. -/
structure Match where
  team1 : Team
  team2 : Team
  battingTeam : Team
  bowlingTeam : Team
  totalOvers : Nat
  balls : List Ball
  currentStriker : Option Player
  currentNonStriker : Option Player
  isSecondInnings : Bool
  firstInningsScore : Nat
  isCompleted : Bool
  deriving DecidableEq, Repr

/-- Embedding of `CricketEngine.shouldRotateStrike` (cricketEngine.ts):
no rotation on a bare wide/no-ball, rotation when extra runs were run on
one, otherwise rotation on odd runs or at the end of the over. -/
def shouldRotateStrike (ball : Ball) (isOverComplete : Bool) : Bool :=
  if ball.isWide || ball.isNoBall then
    decide (1 < ball.runs)
  else
    decide (ball.runs % 2 = 1) || isOverComplete

/-- Embedding of `CricketEngine.processBall` (cricketEngine.ts): the single
state-transition function.  Appends the delivery, adds its runs to the
score of the batting team, updates one extras counter by the wide > no-ball >
bye > leg-bye precedence chain, counts a wicket, and — on a legal
delivery — advances the ball counter, rolling the over and force-swapping
the batsmen on the sixth legal ball, otherwise swapping on odd runs; on a
wide/no-ball the batsmen swap exactly when more than one run was run. -/
def processBall (m : Match) (ball : Ball) : Match :=
  let m1 := { m with balls := m.balls ++ [ball] }
  let m2 := { m1 with battingTeam :=
    { m1.battingTeam with score := m1.battingTeam.score + ball.runs } }
  let m3 :=
    if ball.isWide then
      { m2 with battingTeam := { m2.battingTeam with extras :=
        { m2.battingTeam.extras with wides := m2.battingTeam.extras.wides + 1 } } }
    else if ball.isNoBall then
      { m2 with battingTeam := { m2.battingTeam with extras :=
        { m2.battingTeam.extras with noBalls := m2.battingTeam.extras.noBalls + 1 } } }
    else if ball.isBye then
      { m2 with battingTeam := { m2.battingTeam with extras :=
        { m2.battingTeam.extras with byes := m2.battingTeam.extras.byes + ball.runs } } }
    else if ball.isLegBye then
      { m2 with battingTeam := { m2.battingTeam with extras :=
        { m2.battingTeam.extras with legByes := m2.battingTeam.extras.legByes + ball.runs } } }
    else m2
  let m4 :=
    if ball.isWicket then
      { m3 with battingTeam := { m3.battingTeam with wickets := m3.battingTeam.wickets + 1 } }
    else m3
  if !ball.isWide && !ball.isNoBall then
    let m5 := { m4 with battingTeam := { m4.battingTeam with balls := m4.battingTeam.balls + 1 } }
    if 6 ≤ m5.battingTeam.balls then
      let m6 := { m5 with battingTeam :=
        { m5.battingTeam with overs := m5.battingTeam.overs + 1, balls := 0 } }
      { m6 with currentStriker := m6.currentNonStriker,
                currentNonStriker := m6.currentStriker }
    else
      if shouldRotateStrike ball false then
        { m5 with currentStriker := m5.currentNonStriker,
                  currentNonStriker := m5.currentStriker }
      else m5
  else
    if 1 < ball.runs then
      { m4 with currentStriker := m4.currentNonStriker,
                currentNonStriker := m4.currentStriker }
    else m4

set_option maxHeartbeats 1600000

/-- Field-by-field characterisation of `processBall`, proved once by
exhausting the five delivery flags; every subsequent `processBall`
theorem is derived from it. -/
theorem processBall_char (m : Match) (b : Ball) :
    processBall m b =
      { m with
        balls := m.balls ++ [b],
        battingTeam :=
          { m.battingTeam with
            score := m.battingTeam.score + b.runs,
            extras :=
              if b.isWide then
                { m.battingTeam.extras with wides := m.battingTeam.extras.wides + 1 }
              else if b.isNoBall then
                { m.battingTeam.extras with noBalls := m.battingTeam.extras.noBalls + 1 }
              else if b.isBye then
                { m.battingTeam.extras with byes := m.battingTeam.extras.byes + b.runs }
              else if b.isLegBye then
                { m.battingTeam.extras with legByes := m.battingTeam.extras.legByes + b.runs }
              else m.battingTeam.extras,
            wickets :=
              if b.isWicket then m.battingTeam.wickets + 1 else m.battingTeam.wickets,
            balls :=
              if !b.isWide && !b.isNoBall then
                (if 6 ≤ m.battingTeam.balls + 1 then 0 else m.battingTeam.balls + 1)
              else m.battingTeam.balls,
            overs :=
              if !b.isWide && !b.isNoBall then
                (if 6 ≤ m.battingTeam.balls + 1 then m.battingTeam.overs + 1
                 else m.battingTeam.overs)
              else m.battingTeam.overs },
        currentStriker :=
          if !b.isWide && !b.isNoBall then
            (if 6 ≤ m.battingTeam.balls + 1 then m.currentNonStriker
             else if shouldRotateStrike b false then m.currentNonStriker
             else m.currentStriker)
          else
            (if 1 < b.runs then m.currentNonStriker else m.currentStriker),
        currentNonStriker :=
          if !b.isWide && !b.isNoBall then
            (if 6 ≤ m.battingTeam.balls + 1 then m.currentStriker
             else if shouldRotateStrike b false then m.currentStriker
             else m.currentNonStriker)
          else
            (if 1 < b.runs then m.currentStriker else m.currentNonStriker) } := by
  cases hw : b.isWide <;> cases hn : b.isNoBall <;>
    cases hb : b.isBye <;> cases hl : b.isLegBye <;>
      cases hk : b.isWicket <;>
        simp only [processBall, hw, hn, hb, hl, hk,
          Bool.false_or, Bool.or_false, Bool.or_true, Bool.true_or,
          Bool.not_false, Bool.not_true, Bool.false_and, Bool.true_and,
          Bool.and_false, Bool.and_true, ite_false, ite_true] <;>
        split_ifs <;> rfl

/-- One `processBall` call adds exactly the `runs` field of the delivery to the
score of the batting team, whatever combination of flags the delivery carries. -/
theorem processBall_score (m : Match) (b : Ball) :
    (processBall m b).battingTeam.score = m.battingTeam.score + b.runs := by
  rw [processBall_char]

/-- C4: Score conservation.  Replaying any sequence of deliveries through
`processBall` from any initial match state leaves the score of the batting team
equal to the initial score plus the sum of the `runs` field of every
delivery, each counted exactly once, for all combinations of
wide/no-ball/bye/leg-bye/wicket flags. -/
theorem processBall_score_conservation (m : Match) (bs : List Ball) :
    (bs.foldl processBall m).battingTeam.score
      = m.battingTeam.score + (bs.map Ball.runs).sum := by
  induction bs generalizing m with
  | nil => simp
  | cons b bs ih =>
      simp only [List.foldl_cons, List.map_cons, List.sum_cons]
      rw [ih, processBall_score]
      omega

/-- C9: Extras precedence.  A single `processBall` call updates the extras
counters exactly according to the wide > no-ball > bye > leg-bye
precedence chain: the first flag that is set (in that order) selects the
one counter that changes — wides/no-balls by one delivery, byes/leg-byes
by the run value — and every other counter is untouched, so extras are
never double-counted even when several flags are set at once. -/
theorem processBall_extras (m : Match) (b : Ball) :
    (processBall m b).battingTeam.extras =
      (if b.isWide then
        { m.battingTeam.extras with wides := m.battingTeam.extras.wides + 1 }
      else if b.isNoBall then
        { m.battingTeam.extras with noBalls := m.battingTeam.extras.noBalls + 1 }
      else if b.isBye then
        { m.battingTeam.extras with byes := m.battingTeam.extras.byes + b.runs }
      else if b.isLegBye then
        { m.battingTeam.extras with legByes := m.battingTeam.extras.legByes + b.runs }
      else m.battingTeam.extras) := by
  rw [processBall_char]

/-- C2: Ball counting.  Starting from balls-into-over in `[0,5]`,
`processBall` keeps it in `[0,5]`; a wide or no-ball leaves both the
balls-into-over and completed-overs counters unchanged; a legal delivery
increments balls-into-over, except that the sixth legal ball (counter at
5) atomically resets it to 0 and increments completed-overs by exactly 1,
all within the same call. -/
theorem processBall_ball_counting (m : Match) (b : Ball)
    (h : m.battingTeam.balls ≤ 5) :
    (processBall m b).battingTeam.balls ≤ 5 ∧
    ((b.isWide = true ∨ b.isNoBall = true) →
      (processBall m b).battingTeam.balls = m.battingTeam.balls ∧
      (processBall m b).battingTeam.overs = m.battingTeam.overs) ∧
    (b.isWide = false → b.isNoBall = false →
      (m.battingTeam.balls = 5 →
        (processBall m b).battingTeam.balls = 0 ∧
        (processBall m b).battingTeam.overs = m.battingTeam.overs + 1) ∧
      (m.battingTeam.balls < 5 →
        (processBall m b).battingTeam.balls = m.battingTeam.balls + 1 ∧
        (processBall m b).battingTeam.overs = m.battingTeam.overs)) := by
  rw [processBall_char]
  cases hw : b.isWide <;> cases hn : b.isNoBall <;>
    simp only [hw, hn, Bool.not_false, Bool.not_true, Bool.false_and,
      Bool.true_and, Bool.and_false, Bool.and_true, ite_false, ite_true] <;>
    split_ifs <;> simp_all <;> omega

/-- C1: Strike rotation.  In a `processBall` call from a state with
balls-into-over in `[0,5]`: on a wide/no-ball the striker and non-striker
swap exactly when the run value exceeds 1; on a legal delivery they swap
exactly when it is the over-completing sixth legal ball or the run value
is odd (always at over end, parity-only mid-over). -/
theorem processBall_strike_rotation (m : Match) (b : Ball)
    (h : m.battingTeam.balls ≤ 5) :
    ((processBall m b).currentStriker, (processBall m b).currentNonStriker) =
      if (if b.isWide = true ∨ b.isNoBall = true then 1 < b.runs
          else m.battingTeam.balls = 5 ∨ b.runs % 2 = 1) then
        (m.currentNonStriker, m.currentStriker)
      else
        (m.currentStriker, m.currentNonStriker) := by
  rw [processBall_char]
  cases hw : b.isWide <;> cases hn : b.isNoBall <;>
    simp only [shouldRotateStrike, hw, hn, Bool.not_false, Bool.not_true,
      Bool.false_and, Bool.true_and, Bool.and_false, Bool.and_true,
      Bool.false_or, Bool.or_false, Bool.or_true, Bool.true_or,
      ite_false, ite_true] <;>
    split_ifs <;> simp_all <;> omega

/-- Embedding of `CricketEngine.isInningsComplete` (cricketEngine.ts): all overs
bowled, or all ten wickets down, or — in the second innings — the chase
target passed.  The JavaScript guard `match.firstInningsScore && …` is
truthiness: it is false both for an unset and for a zero first-innings
score, modelled as `≠ 0`. -/
def isInningsComplete (m : Match) : Bool :=
  if m.totalOvers ≤ m.battingTeam.overs then true
  else if 10 ≤ m.battingTeam.wickets then true
  else if m.isSecondInnings && (m.firstInningsScore != 0)
          && decide (m.firstInningsScore < m.battingTeam.score) then true
  else false

/-- Embedding of `CricketEngine.canBowlerBowlNextOver` (cricketEngine.ts): always true
on an empty log or in the first over; otherwise compares the id of the candidate
id against the bowler of the *first* delivery recorded for the previous
over (`previousOverBalls[0]?.bowler`). -/
def canBowlerBowlNextOver (bowler : Player) (m : Match) : Bool :=
  if m.balls.length = 0 then true
  else
    let currentOver := m.battingTeam.overs + 1
    let previousOver := currentOver - 1
    if previousOver ≤ 0 then true
    else
      let previousOverBalls := m.balls.filter (fun b => b.overNumber == previousOver)
      if previousOverBalls.length = 0 then true
      else
        match previousOverBalls.head? with
        | some b0 => b0.bowler.id != bowler.id
        | none => true

/-- Embedding of `handleUndo` (LiveScorer.tsx), applied to the most recent delivery
`lastBall`: removes it from the ball log by id, subtracts its runs from
the score, reverses the extras counter it had selected, decrements the
wicket count if it was a wicket, and rolls the legal-ball counter back
(borrowing from the completed-overs count when the over had just rolled
over).  The striker/non-striker fields are not touched. -/
def handleUndo (m : Match) (lastBall : Ball) : Match :=
  let m1 := { m with balls := m.balls.filter (fun bb => bb.id != lastBall.id) }
  let m2 := { m1 with battingTeam :=
    { m1.battingTeam with score := m1.battingTeam.score - lastBall.runs } }
  let m3 :=
    if lastBall.isWide then
      { m2 with battingTeam := { m2.battingTeam with extras :=
        { m2.battingTeam.extras with wides := m2.battingTeam.extras.wides - 1 } } }
    else if lastBall.isNoBall then
      { m2 with battingTeam := { m2.battingTeam with extras :=
        { m2.battingTeam.extras with noBalls := m2.battingTeam.extras.noBalls - 1 } } }
    else if lastBall.isBye then
      { m2 with battingTeam := { m2.battingTeam with extras :=
        { m2.battingTeam.extras with byes := m2.battingTeam.extras.byes - lastBall.runs } } }
    else if lastBall.isLegBye then
      { m2 with battingTeam := { m2.battingTeam with extras :=
        { m2.battingTeam.extras with legByes := m2.battingTeam.extras.legByes - lastBall.runs } } }
    else m2
  let m4 :=
    if lastBall.isWicket then
      { m3 with battingTeam := { m3.battingTeam with wickets := m3.battingTeam.wickets - 1 } }
    else m3
  if !lastBall.isWide && !lastBall.isNoBall then
    if m4.battingTeam.balls = 0 ∧ 0 < m4.battingTeam.overs then
      { m4 with battingTeam :=
        { m4.battingTeam with overs := m4.battingTeam.overs - 1, balls := 5 } }
    else
      { m4 with battingTeam :=
        { m4.battingTeam with balls := m4.battingTeam.balls - 1 } }
  else m4

/-! Concrete sample data used by witnesses and counterexamples. -/

/-- All-zero career counters. -/
def stats0 : PlayerStats :=
  { matchesPlayed := 0, runsScored := 0, ballsFaced := 0, fours := 0,
    sixes := 0, dotBalls := 0, timesOut := 0, ducks := 0, fifties := 0,
    hundreds := 0, highestScore := 0 }

/-- Sample batsman (opening striker). -/
def pA : Player := { id := 1, stats := stats0 }

/-- Sample batsman (opening non-striker). -/
def pB : Player := { id := 2, stats := stats0 }

/-- Sample bowler. -/
def pC : Player := { id := 3, stats := stats0 }

/-- Second sample bowler. -/
def pD : Player := { id := 4, stats := stats0 }

/-- A fresh team innings for the given roster. -/
def freshTeam (ps : List Player) : Team :=
  { players := ps, score := 0, wickets := 0, overs := 0, balls := 0,
    extras := { wides := 0, noBalls := 0, byes := 0, legByes := 0 } }

/-- A first-innings match about to receive its first delivery:
`pA` on strike, `pB` at the other end, `pC` and `pD` fielding. -/
def matchW1 : Match :=
  { team1 := freshTeam [pA, pB], team2 := freshTeam [pC, pD],
    battingTeam := freshTeam [pA, pB], bowlingTeam := freshTeam [pC, pD],
    totalOvers := 2, balls := [], currentStriker := some pA,
    currentNonStriker := some pB, isSecondInnings := false,
    firstInningsScore := 0, isCompleted := false }

/-- A legal single off the bat by `pA`. -/
def ballW1 : Ball :=
  { id := 10, overNumber := 1, runs := 1, striker := pA, bowler := pC,
    isWide := false, isNoBall := false, isBye := false, isLegBye := false,
    isWicket := false, wicketType := none, fielder := none }

/-- Witness for the strike-rotation theorem: a legal single mid-over
swaps the batsmen. -/
theorem processBall_strike_rotation_witness :
    matchW1.battingTeam.balls ≤ 5 ∧
    ((processBall matchW1 ballW1).currentStriker,
        (processBall matchW1 ballW1).currentNonStriker) =
      if (if ballW1.isWide = true ∨ ballW1.isNoBall = true then 1 < ballW1.runs
          else matchW1.battingTeam.balls = 5 ∨ ballW1.runs % 2 = 1) then
        (matchW1.currentNonStriker, matchW1.currentStriker)
      else
        (matchW1.currentStriker, matchW1.currentNonStriker) :=
  ⟨by decide, processBall_strike_rotation matchW1 ballW1 (by decide)⟩

/-- Witness for the ball-counting theorem, at a fresh over. -/
theorem processBall_ball_counting_witness :
    matchW1.battingTeam.balls ≤ 5 ∧
    ((processBall matchW1 ballW1).battingTeam.balls ≤ 5 ∧
    ((ballW1.isWide = true ∨ ballW1.isNoBall = true) →
      (processBall matchW1 ballW1).battingTeam.balls = matchW1.battingTeam.balls ∧
      (processBall matchW1 ballW1).battingTeam.overs = matchW1.battingTeam.overs) ∧
    (ballW1.isWide = false → ballW1.isNoBall = false →
      (matchW1.battingTeam.balls = 5 →
        (processBall matchW1 ballW1).battingTeam.balls = 0 ∧
        (processBall matchW1 ballW1).battingTeam.overs = matchW1.battingTeam.overs + 1) ∧
      (matchW1.battingTeam.balls < 5 →
        (processBall matchW1 ballW1).battingTeam.balls = matchW1.battingTeam.balls + 1 ∧
        (processBall matchW1 ballW1).battingTeam.overs = matchW1.battingTeam.overs))) :=
  ⟨by decide, processBall_ball_counting matchW1 ballW1 (by decide)⟩

/-- A second-innings chase of a first-innings total of zero: one run has
been scored, overs and wickets remain. -/
def matchC3 : Match :=
  { team1 := freshTeam [pC, pD], team2 := freshTeam [pA, pB],
    battingTeam := { freshTeam [pA, pB] with score := 1 },
    bowlingTeam := freshTeam [pC, pD],
    totalOvers := 2, balls := [], currentStriker := some pA,
    currentNonStriker := some pB, isSecondInnings := true,
    firstInningsScore := 0, isCompleted := false }

/-- C3: in a second innings whose target is a first-innings score of 0,
the batting side has strictly exceeded that score with overs and wickets
in hand, yet `isInningsComplete` still answers `false` — the JavaScript
truthiness guard on `firstInningsScore` disables the chase-won clause
when the first-innings score is 0. -/
theorem isInningsComplete_zero_target_bug :
    isInningsComplete matchC3 = false ∧
    matchC3.isSecondInnings = true ∧
    matchC3.firstInningsScore < matchC3.battingTeam.score ∧
    matchC3.battingTeam.overs < matchC3.totalOvers ∧
    matchC3.battingTeam.wickets < 10 := by decide

/-- C5: undoing the single off the bat does not restore the match: the
batsmen stay swapped, while every other field does return to its prior
value. -/
theorem handleUndo_leaves_strike_swapped :
    handleUndo (processBall matchW1 ballW1) ballW1 ≠ matchW1 ∧
    (handleUndo (processBall matchW1 ballW1) ballW1).currentStriker
      ≠ matchW1.currentStriker ∧
    { handleUndo (processBall matchW1 ballW1) ballW1 with
        currentStriker := matchW1.currentStriker,
        currentNonStriker := matchW1.currentNonStriker } = matchW1 := by
  decide

/-- A match whose first (and only completed) over was shared by two
bowlers: `pC` bowled its first delivery, `pD` its remaining five. -/
def matchC6 : Match :=
  { team1 := freshTeam [pA, pB], team2 := freshTeam [pC, pD],
    battingTeam := { freshTeam [pA, pB] with overs := 1 },
    bowlingTeam := freshTeam [pC, pD],
    totalOvers := 2,
    balls :=
      [{ id := 20, overNumber := 1, runs := 0, striker := pA, bowler := pC,
         isWide := false, isNoBall := false, isBye := false, isLegBye := false,
         isWicket := false, wicketType := none, fielder := none },
       { id := 21, overNumber := 1, runs := 0, striker := pA, bowler := pD,
         isWide := false, isNoBall := false, isBye := false, isLegBye := false,
         isWicket := false, wicketType := none, fielder := none }],
    currentStriker := some pA, currentNonStriker := some pB,
    isSecondInnings := false, firstInningsScore := 0, isCompleted := false }

/-- C6 counterexample: `pD` bowled a delivery of the immediately
preceding over, yet `canBowlerBowlNextOver` accepts `pD` — only the
bowler of the first delivery of the over is ever compared. -/
theorem canBowlerBowlNextOver_not_any_delivery :
    canBowlerBowlNextOver pD matchC6 = true ∧
    (matchC6.balls.filter
        (fun b => b.overNumber == matchC6.battingTeam.overs)).any
      (fun b => b.bowler.id == pD.id) = true := by decide

/-- C6 (amended): `canBowlerBowlNextOver` rejects a candidate exactly
when the log is non-empty, at least one over is complete, and the *first*
logged delivery of the immediately preceding over was bowled by the
candidate; in particular every candidate is permitted for the first over
of an innings. -/
theorem canBowlerBowlNextOver_iff (p : Player) (m : Match) :
    canBowlerBowlNextOver p m = false ↔
      (m.balls ≠ [] ∧ 0 < m.battingTeam.overs ∧
        ∃ b0, (m.balls.filter
            (fun b => b.overNumber == m.battingTeam.overs)).head? = some b0 ∧
          b0.bowler.id = p.id) := by
  unfold canBowlerBowlNextOver
  dsimp only
  rw [Nat.add_sub_cancel]
  split_ifs with h1 h2 h3
  · simp [List.length_eq_zero.mp h1]
  · simp only [Nat.le_zero] at h2
    simp [h2]
  · constructor
    · intro h; cases h
    · rintro ⟨-, -, b0, hb0, -⟩
      rw [List.head?_eq_none_iff.mpr (List.length_eq_zero.mp h3)] at hb0
      cases hb0
  · rcases hh : (m.balls.filter (fun b => b.overNumber == m.battingTeam.overs)).head? with - | b0
    · exact absurd (List.length_eq_zero.mpr (List.head?_eq_none_iff.mp hh)) h3
    · simp only [hh, bne_eq_false_iff_eq, Option.some.injEq]
      constructor
      · intro hid
        exact ⟨fun he => h1 (List.length_eq_zero.mpr he),
          Nat.pos_of_ne_zero (fun h0 => h2 (by omega)), b0, rfl, hid⟩
      · rintro ⟨-, -, b1, hb1, hid⟩
        cases hb1
        exact hid

/-! ## Statistics aggregator (batting section) -/

/-- Mutable accumulator of the `battingBalls.forEach` loops in
`CricketEngine.updatePlayerStats` and
`CricketEngine.calculatePlayerPerformance`. -/
structure BattingAcc where
  runsScored : Nat
  ballsFaced : Nat
  fours : Nat
  sixes : Nat
  dotBalls : Nat
  gotOut : Bool
  deriving DecidableEq, Repr

/-- One iteration of the `battingBalls.forEach` loop of
`CricketEngine.updatePlayerStats`: runs off the bat exclude every extras
kind, balls faced exclude wides/no-balls (and count dots), while fours
and sixes are counted from the raw run value alone. -/
def battingStep (player : Player) (acc : BattingAcc) (ball : Ball) : BattingAcc :=
  let acc :=
    if !ball.isWide && !ball.isNoBall && !ball.isBye && !ball.isLegBye then
      { acc with runsScored := acc.runsScored + ball.runs }
    else acc
  let acc :=
    if !ball.isWide && !ball.isNoBall then
      let acc := { acc with ballsFaced := acc.ballsFaced + 1 }
      if ball.runs = 0 then { acc with dotBalls := acc.dotBalls + 1 } else acc
    else acc
  let acc := if ball.runs = 4 then { acc with fours := acc.fours + 1 } else acc
  let acc := if ball.runs = 6 then { acc with sixes := acc.sixes + 1 } else acc
  if ball.isWicket && (ball.striker.id == player.id) then
    { acc with gotOut := true }
  else acc

/-- The batting-statistics section of `CricketEngine.updatePlayerStats`
(cricketEngine.ts): folds the deliveries faced by the player into a
delta that is added to the existing cumulative counters.  The bowling,
fielding and man-of-the-match sections update fields outside the
batting-restricted `PlayerStats` of this development and are omitted. -/
def updatePlayerStats (player : Player) (m : Match) : PlayerStats :=
  let stats := { player.stats with matchesPlayed := player.stats.matchesPlayed + 1 }
  let battingBalls := m.balls.filter (fun b => b.striker.id == player.id)
  let acc := battingBalls.foldl (battingStep player)
    { runsScored := 0, ballsFaced := 0, fours := 0, sixes := 0,
      dotBalls := 0, gotOut := false }
  let stats := { stats with
    runsScored := stats.runsScored + acc.runsScored,
    ballsFaced := stats.ballsFaced + acc.ballsFaced,
    fours := stats.fours + acc.fours,
    sixes := stats.sixes + acc.sixes,
    dotBalls := stats.dotBalls + acc.dotBalls }
  let stats :=
    if acc.gotOut then { stats with timesOut := stats.timesOut + 1 } else stats
  let stats :=
    if acc.gotOut ∧ acc.runsScored = 0 then
      { stats with ducks := stats.ducks + 1 }
    else stats
  let stats :=
    if 50 ≤ acc.runsScored ∧ acc.runsScored < 100 then
      { stats with fifties := stats.fifties + 1 }
    else stats
  let stats :=
    if 100 ≤ acc.runsScored then { stats with hundreds := stats.hundreds + 1 }
    else stats
  if stats.highestScore < acc.runsScored then
    { stats with highestScore := acc.runsScored }
  else stats

/-! ## Performance scorer (man of the match)

JavaScript double arithmetic on the heuristic scores is idealised as
exact rational arithmetic. -/

/-- Per-player per-match performance record
(`PlayerPerformance` in `src/types/cricket.ts`). -/
structure PlayerPerformance where
  playerId : Nat
  battingScore : ℚ
  bowlingScore : ℚ
  fieldingScore : ℚ
  totalScore : ℚ
  deriving DecidableEq, Repr

/-- One iteration of the batting `forEach` loop of
`CricketEngine.calculatePlayerPerformance` (the redundant inner striker
check of the source included). -/
def perfBattingStep (player : Player) (acc : BattingAcc) (ball : Ball) : BattingAcc :=
  if ball.striker.id == player.id then
    let acc :=
      if !ball.isWide && !ball.isNoBall && !ball.isBye && !ball.isLegBye then
        { acc with runsScored := acc.runsScored + ball.runs }
      else acc
    let acc :=
      if !ball.isWide && !ball.isNoBall then
        { acc with ballsFaced := acc.ballsFaced + 1 }
      else acc
    let acc := if ball.runs = 4 then { acc with fours := acc.fours + 1 } else acc
    let acc := if ball.runs = 6 then { acc with sixes := acc.sixes + 1 } else acc
    if ball.isWicket then { acc with gotOut := true } else acc
  else acc

/-- Mutable accumulator of the bowling `forEach` loop of
`CricketEngine.calculatePlayerPerformance`. -/
structure BowlingAcc where
  wicketsTaken : Nat
  runsConceded : Nat
  ballsBowled : Nat
  dotBalls : Nat
  deriving DecidableEq, Repr

/-- One iteration of the bowling `forEach` loop of
`CricketEngine.calculatePlayerPerformance`: wides/no-balls do not count
as balls bowled, run-outs are not credited to the bowler, every run off
the delivery is conceded. -/
def perfBowlingStep (acc : BowlingAcc) (ball : Ball) : BowlingAcc :=
  let acc :=
    if !ball.isWide && !ball.isNoBall then
      let acc := { acc with ballsBowled := acc.ballsBowled + 1 }
      if ball.runs = 0 then { acc with dotBalls := acc.dotBalls + 1 } else acc
    else acc
  let acc :=
    if ball.isWicket && !(ball.wicketType == some WicketType.run_out) then
      { acc with wicketsTaken := acc.wicketsTaken + 1 }
    else acc
  { acc with runsConceded := acc.runsConceded + ball.runs }

/-- Embedding of `CricketEngine.calculatePlayerPerformance` (cricketEngine.ts): the
three heuristic sub-scores computed from the ball log of the match alone. -/
def calculatePlayerPerformance (player : Player) (m : Match) : PlayerPerformance :=
  let battingBalls := m.balls.filter (fun b => b.striker.id == player.id)
  let bacc := battingBalls.foldl (perfBattingStep player)
    { runsScored := 0, ballsFaced := 0, fours := 0, sixes := 0,
      dotBalls := 0, gotOut := false }
  let battingScore : ℚ :=
    if 0 < bacc.ballsFaced then
      let strikeRate : ℚ := ((bacc.runsScored : ℚ) / (bacc.ballsFaced : ℚ)) * 100
      let s : ℚ := (bacc.runsScored : ℚ) * 1.5
      let s :=
        if 150 ≤ strikeRate then s + (bacc.runsScored : ℚ) * 0.4
        else if 120 ≤ strikeRate then s + (bacc.runsScored : ℚ) * 0.2
        else if strikeRate < 80 ∧ 10 ≤ bacc.ballsFaced then
          s - (bacc.runsScored : ℚ) * 0.1
        else s
      let s :=
        if 100 ≤ bacc.runsScored then s + 50
        else if 50 ≤ bacc.runsScored then s + 25
        else if 30 ≤ bacc.runsScored then s + 10
        else s
      let s := s + (bacc.fours : ℚ) * 2
      let s := s + (bacc.sixes : ℚ) * 4
      let s := if !bacc.gotOut ∧ 20 ≤ bacc.runsScored then s + 10 else s
      if bacc.gotOut ∧ bacc.runsScored = 0 then s - 10 else s
    else 0
  let bowlingBalls := m.balls.filter (fun b => b.bowler.id == player.id)
  let wacc := bowlingBalls.foldl perfBowlingStep
    { wicketsTaken := 0, runsConceded := 0, ballsBowled := 0, dotBalls := 0 }
  let bowlingScore : ℚ :=
    if 0 < wacc.ballsBowled then
      let economyRate : ℚ := ((wacc.runsConceded : ℚ) / (wacc.ballsBowled : ℚ)) * 6
      let dotBallPercentage : ℚ := ((wacc.dotBalls : ℚ) / (wacc.ballsBowled : ℚ)) * 100
      let s : ℚ := (wacc.wicketsTaken : ℚ) * 25
      let s :=
        if economyRate ≤ 4 then s + 20
        else if economyRate ≤ 6 then s + 10
        else if 10 ≤ economyRate then s - 10
        else s
      let s :=
        if 60 ≤ dotBallPercentage then s + 15
        else if 40 ≤ dotBallPercentage then s + 8
        else s
      if 5 ≤ wacc.wicketsTaken then s + 30
      else if 3 ≤ wacc.wicketsTaken then s + 15
      else s
    else 0
  let catches := (m.balls.filter (fun b =>
    b.isWicket && (b.wicketType == some WicketType.caught)
      && b.fielder.any (fun f => f.id == player.id))).length
  let runOuts := (m.balls.filter (fun b =>
    b.isWicket && (b.wicketType == some WicketType.run_out)
      && b.fielder.any (fun f => f.id == player.id))).length
  let stumpings := (m.balls.filter (fun b =>
    b.isWicket && (b.wicketType == some WicketType.stumped)
      && b.fielder.any (fun f => f.id == player.id))).length
  let fieldingScore : ℚ := (catches : ℚ) * 8 + (runOuts : ℚ) * 12 + (stumpings : ℚ) * 10
  { playerId := player.id,
    battingScore := battingScore,
    bowlingScore := bowlingScore,
    fieldingScore := fieldingScore,
    totalScore := battingScore + bowlingScore + fieldingScore }

/-- Insertion step of the stable descending sort: an element moves left
past strictly smaller totals only, so among equal totals the original
order is kept. -/
def insertByTotalDesc (x : PlayerPerformance) :
    List PlayerPerformance → List PlayerPerformance
  | [] => [x]
  | y :: ys =>
      if y.totalScore < x.totalScore then x :: y :: ys
      else y :: insertByTotalDesc x ys

/-- Model of the stable (per the ECMAScript specification)
`performances.sort((a, b) => b.totalScore - a.totalScore)`. -/
def sortByTotalDesc (l : List PlayerPerformance) : List PlayerPerformance :=
  l.foldl (fun acc x => insertByTotalDesc x acc) []

/-- Embedding of `CricketEngine.calculateManOfTheMatch` (cricketEngine.ts): `null`
for an uncompleted match; otherwise only performances with a strictly
positive total are ranked, the list is stably sorted by total descending,
and the player carrying the id of the top performance is looked up in the
combined team1-then-team2 roster. -/
def calculateManOfTheMatch (m : Match) : Option Player :=
  if !m.isCompleted then none
  else
    let allPlayers := m.team1.players ++ m.team2.players
    let performances := (allPlayers.map
      (fun p => calculatePlayerPerformance p m)).filter
        (fun perf => decide (0 < perf.totalScore))
    let sorted := sortByTotalDesc performances
    match sorted.head? with
    | none => none
    | some top => allPlayers.find? (fun p => p.id == top.playerId)

/-- C10: for a match whose completion flag is down,
`calculateManOfTheMatch` answers `null` whatever the ball log holds. -/
theorem calculateManOfTheMatch_incomplete (m : Match)
    (h : m.isCompleted = false) : calculateManOfTheMatch m = none := by
  simp [calculateManOfTheMatch, h]

/-- Witness for the incomplete-match theorem. -/
theorem calculateManOfTheMatch_incomplete_witness :
    matchW1.isCompleted = false ∧ calculateManOfTheMatch matchW1 = none :=
  ⟨rfl, calculateManOfTheMatch_incomplete matchW1 rfl⟩

/-- A `battingStep` iteration bumps `fours` exactly on a raw run value
of 4, regardless of every extras flag. -/
theorem battingStep_fours (player : Player) (acc : BattingAcc) (b : Ball) :
    (battingStep player acc b).fours =
      acc.fours + (if b.runs = 4 then 1 else 0) := by
  unfold battingStep
  dsimp only
  split_ifs <;> simp_all

/-- A `battingStep` iteration bumps `sixes` exactly on a raw run value
of 6, regardless of every extras flag. -/
theorem battingStep_sixes (player : Player) (acc : BattingAcc) (b : Ball) :
    (battingStep player acc b).sixes =
      acc.sixes + (if b.runs = 6 then 1 else 0) := by
  unfold battingStep
  dsimp only
  split_ifs <;> simp_all

/-- Folding `battingStep` counts fours as the deliveries with run value
exactly 4. -/
theorem foldl_battingStep_fours (player : Player) :
    ∀ (l : List Ball) (acc : BattingAcc),
      (l.foldl (battingStep player) acc).fours =
        acc.fours + (l.filter (fun b => b.runs == 4)).length
  | [], acc => by simp
  | b :: l, acc => by
      rw [List.foldl_cons, foldl_battingStep_fours player l,
        battingStep_fours]
      by_cases h : b.runs = 4 <;> simp [h] <;> omega

/-- Folding `battingStep` counts sixes as the deliveries with run value
exactly 6. -/
theorem foldl_battingStep_sixes (player : Player) :
    ∀ (l : List Ball) (acc : BattingAcc),
      (l.foldl (battingStep player) acc).sixes =
        acc.sixes + (l.filter (fun b => b.runs == 6)).length
  | [], acc => by simp
  | b :: l, acc => by
      rw [List.foldl_cons, foldl_battingStep_sixes player l,
        battingStep_sixes]
      by_cases h : b.runs = 6 <;> simp [h] <;> omega

/-- C8 (amended): `updatePlayerStats` increases the fours counter by the
number of deliveries on which the player was striker and the run value
was exactly 4 — including wides, no-balls, byes and leg-byes worth 4 —
and likewise the sixes counter for run value exactly 6. -/
theorem updatePlayerStats_fours_sixes (player : Player) (m : Match) :
    (updatePlayerStats player m).fours = player.stats.fours +
      ((m.balls.filter (fun b => b.striker.id == player.id)).filter
        (fun b => b.runs == 4)).length ∧
    (updatePlayerStats player m).sixes = player.stats.sixes +
      ((m.balls.filter (fun b => b.striker.id == player.id)).filter
        (fun b => b.runs == 6)).length := by
  unfold updatePlayerStats
  dsimp only
  rw [foldl_battingStep_fours, foldl_battingStep_sixes]
  split_ifs <;> simp_all

/-- A match containing a single delivery: four byes off the pad of `pA`, no
contact with the bat. -/
def matchC8 : Match :=
  { team1 := freshTeam [pA, pB], team2 := freshTeam [pC, pD],
    battingTeam :=
      { players := [pA, pB], score := 4, wickets := 0, overs := 0, balls := 1,
        extras := { wides := 0, noBalls := 0, byes := 4, legByes := 0 } },
    bowlingTeam := freshTeam [pC, pD],
    totalOvers := 2,
    balls :=
      [{ id := 30, overNumber := 1, runs := 4, striker := pA, bowler := pC,
         isWide := false, isNoBall := false, isBye := true, isLegBye := false,
         isWicket := false, wicketType := none, fielder := none }],
    currentStriker := some pA, currentNonStriker := some pB,
    isSecondInnings := false, firstInningsScore := 0, isCompleted := false }

/-- C8 counterexample: a bye delivery worth 4 runs increments the
fours counter of the striker, where the claim says a bye worth 4 contributes
to neither boundary counter. -/
theorem updatePlayerStats_counts_bye_as_four :
    (matchC8.balls.map Ball.isBye) = [true] ∧
    (matchC8.balls.map Ball.runs) = [4] ∧
    pA.stats.fours = 0 ∧
    (updatePlayerStats pA matchC8).fours = 1 := by decide

/-- Selection step: keep the incumbent unless the total of the challenger is
strictly larger — the head of a stable descending sort evolves exactly
like this while elements are inserted left to right. -/
def pickBetter (o : Option PlayerPerformance) (x : PlayerPerformance) :
    Option PlayerPerformance :=
  match o with
  | none => some x
  | some y => if y.totalScore < x.totalScore then some x else some y

/-- The first element attaining the maximal total (ties keep the earlier
element): the selection the spec describes for man of the match. -/
def firstMaxByTotal (l : List PlayerPerformance) : Option PlayerPerformance :=
  l.foldl pickBetter none

/-- The head of an insertion is decided by the old head alone. -/
theorem insertByTotalDesc_head (x : PlayerPerformance)
    (acc : List PlayerPerformance) :
    (insertByTotalDesc x acc).head? = pickBetter acc.head? x := by
  cases acc with
  | nil => rfl
  | cons y ys =>
      unfold insertByTotalDesc pickBetter
      dsimp only [List.head?]
      split_ifs <;> rfl

/-- Head of the insertion-sort fold, computed by folding `pickBetter`
over the same input. -/
theorem foldl_insert_head :
    ∀ (l acc : List PlayerPerformance),
      ((l.foldl (fun a x => insertByTotalDesc x a) acc).head?) =
        l.foldl pickBetter acc.head?
  | [], _ => rfl
  | x :: l, acc => by
      rw [List.foldl_cons, List.foldl_cons, foldl_insert_head l,
        insertByTotalDesc_head]

/-- The head of the stable descending sort is the first maximum. -/
theorem sortByTotalDesc_head (l : List PlayerPerformance) :
    (sortByTotalDesc l).head? = firstMaxByTotal l :=
  foldl_insert_head l []

/-- Folding `pickBetter` over elements below a bound, from a start below
the bound, stays below the bound. -/
theorem foldl_pickBetter_lt (k : ℚ) :
    ∀ (l : List PlayerPerformance) (o : Option PlayerPerformance),
      (∀ y, o = some y → y.totalScore < k) →
      (∀ a ∈ l, a.totalScore < k) →
      ∀ y, l.foldl pickBetter o = some y → y.totalScore < k
  | [], _, ho, _, y, hy => ho y hy
  | a :: l, o, ho, hl, y, hy => by
      rw [List.foldl_cons] at hy
      refine foldl_pickBetter_lt k l (pickBetter o a) ?_
        (fun b hb => hl b (List.mem_cons_of_mem a hb)) y hy
      intro z hz
      cases o with
      | none =>
          dsimp only [pickBetter] at hz
          cases hz
          exact hl a (List.mem_cons_self a l)
      | some w =>
          dsimp only [pickBetter] at hz
          split_ifs at hz
          · cases hz
            exact hl a (List.mem_cons_self a l)
          · cases hz
            exact ho _ rfl

/-- Folding `pickBetter` over elements not exceeding the incumbent keeps
the incumbent. -/
theorem foldl_pickBetter_const :
    ∀ (l : List PlayerPerformance) (y : PlayerPerformance),
      (∀ b ∈ l, b.totalScore ≤ y.totalScore) →
      l.foldl pickBetter (some y) = some y
  | [], _, _ => rfl
  | b :: l, y, h => by
      rw [List.foldl_cons,
        show pickBetter (some y) b = some y by
          simp [pickBetter, not_lt.mpr (h b (List.mem_cons_self b l))]]
      exact foldl_pickBetter_const l y
        (fun c hc => h c (List.mem_cons_of_mem b hc))

/-- The first maximum of a list split around a dominant element is that
element: everything before it is strictly below, nothing after exceeds. -/
theorem firstMaxByTotal_append (A B : List PlayerPerformance)
    (x : PlayerPerformance)
    (hA : ∀ a ∈ A, a.totalScore < x.totalScore)
    (hB : ∀ b ∈ B, b.totalScore ≤ x.totalScore) :
    firstMaxByTotal (A ++ x :: B) = some x := by
  unfold firstMaxByTotal
  rw [List.foldl_append, List.foldl_cons]
  have hpb : pickBetter (A.foldl pickBetter none) x = some x := by
    cases ho : A.foldl pickBetter none with
    | none => rfl
    | some y =>
        have hy : y.totalScore < x.totalScore :=
          foldl_pickBetter_lt x.totalScore A none
            (by intro z hz; cases hz) hA y ho
        simp [pickBetter, hy]
  rw [hpb]
  exact foldl_pickBetter_const B x hB

/-- Lookup by `find?` over a split roster whose front part misses the id returns
the split element. -/
theorem find?_eq_first_id :
    ∀ (l₁ l₂ : List Player) (p : Player) (k : Nat),
      (∀ q ∈ l₁, q.id ≠ k) → p.id = k →
      ((l₁ ++ p :: l₂).find? (fun q => q.id == k)) = some p
  | [], l₂, p, k, _, hp => by
      simp [List.find?_cons_of_pos, hp]
  | a :: l₁, l₂, p, k, h, hp => by
      rw [List.cons_append,
        List.find?_cons_of_neg _
          (by simp [h a (List.mem_cons_self a l₁)])]
      exact find?_eq_first_id l₁ l₂ p k
        (fun q hq => h q (List.mem_cons_of_mem a hq)) hp

/-- C7 (amended): for a completed match, whenever the combined
team1-then-team2 roster splits as `l₁ ++ p :: l₂` around a player `p`
whose performance total is strictly positive, strictly above the
total of every earlier roster player and at least that of every later one — i.e. `p`
is the first roster player attaining the maximum — and no earlier roster
player shares the id of `p`, `calculateManOfTheMatch` returns `p`.  (Players
whose total is not strictly positive are dropped before ranking, so a
tied-or-negative top scorer can yield `null` instead; see the
counterexample.) -/
theorem calculateManOfTheMatch_first_strict_max
    (m : Match) (l₁ l₂ : List Player) (p : Player)
    (hc : m.isCompleted = true)
    (hsplit : m.team1.players ++ m.team2.players = l₁ ++ p :: l₂)
    (hpos : 0 < (calculatePlayerPerformance p m).totalScore)
    (hbefore : ∀ q ∈ l₁, (calculatePlayerPerformance q m).totalScore
        < (calculatePlayerPerformance p m).totalScore)
    (hafter : ∀ q ∈ l₂, (calculatePlayerPerformance q m).totalScore
        ≤ (calculatePlayerPerformance p m).totalScore)
    (hid : ∀ q ∈ l₁, q.id ≠ p.id) :
    calculateManOfTheMatch m = some p := by
  unfold calculateManOfTheMatch
  rw [hc]
  simp only [Bool.not_true, Bool.false_eq_true, if_false]
  rw [hsplit, sortByTotalDesc_head, List.map_append, List.map_cons,
    List.filter_append,
    List.filter_cons_of_pos (by exact decide_eq_true hpos)]
  rw [firstMaxByTotal_append _ _ _
    (by
      intro a ha
      obtain ⟨hmem, -⟩ := List.mem_filter.mp ha
      obtain ⟨q, hq, rfl⟩ := List.mem_map.mp hmem
      exact hbefore q hq)
    (by
      intro b hb
      obtain ⟨hmem, -⟩ := List.mem_filter.mp hb
      obtain ⟨q, hq, rfl⟩ := List.mem_map.mp hmem
      exact hafter q hq)]
  exact find?_eq_first_id l₁ l₂ p p.id hid rfl

/-- A completed match: `pA` hit a four off the only delivery, bowled by
`pC`. -/
def matchW7 : Match :=
  { team1 := freshTeam [pA, pB], team2 := freshTeam [pC],
    battingTeam := { freshTeam [pA, pB] with score := 4, balls := 1 },
    bowlingTeam := freshTeam [pC],
    totalOvers := 2,
    balls :=
      [{ id := 40, overNumber := 1, runs := 4, striker := pA, bowler := pC,
         isWide := false, isNoBall := false, isBye := false, isLegBye := false,
         isWicket := false, wicketType := none, fielder := none }],
    currentStriker := some pA, currentNonStriker := some pB,
    isSecondInnings := true, firstInningsScore := 3, isCompleted := true }

/-- Performance of `pA` in `matchW7`: 4 runs off 1 ball, strike rate 400,
so 4·1.5 + 4·0.4 + 2 = 9.6. -/
theorem perf_pA_matchW7 :
    calculatePlayerPerformance pA matchW7 =
      { playerId := 1, battingScore := 9.6, bowlingScore := 0,
        fieldingScore := 0, totalScore := 9.6 } := by
  norm_num [calculatePlayerPerformance, perfBattingStep, perfBowlingStep,
    matchW7, freshTeam, pA, pB, pC, stats0]

/-- Player `pB` did not bat or bowl in `matchW7`. -/
theorem perf_pB_matchW7 :
    calculatePlayerPerformance pB matchW7 =
      { playerId := 2, battingScore := 0, bowlingScore := 0,
        fieldingScore := 0, totalScore := 0 } := by
  norm_num [calculatePlayerPerformance, perfBattingStep, perfBowlingStep,
    matchW7, freshTeam, pA, pB, pC, stats0]

/-- Player `pC` conceded four runs off one legal ball (economy 24), scoring
−10. -/
theorem perf_pC_matchW7 :
    calculatePlayerPerformance pC matchW7 =
      { playerId := 3, battingScore := 0, bowlingScore := -10,
        fieldingScore := 0, totalScore := -10 } := by
  norm_num [calculatePlayerPerformance, perfBattingStep, perfBowlingStep,
    matchW7, freshTeam, pA, pB, pC, stats0]

/-- Witness for the man-of-the-match theorem: in `matchW7` the roster
splits as `[] ++ pA :: [pB, pC]`, the 9.6 of `pA` dominates 0 and −10, and
the engine indeed selects `pA`. -/
theorem calculateManOfTheMatch_first_strict_max_witness :
    matchW7.isCompleted = true ∧
    matchW7.team1.players ++ matchW7.team2.players = [] ++ pA :: [pB, pC] ∧
    0 < (calculatePlayerPerformance pA matchW7).totalScore ∧
    (∀ q ∈ ([] : List Player),
      (calculatePlayerPerformance q matchW7).totalScore
        < (calculatePlayerPerformance pA matchW7).totalScore) ∧
    (∀ q ∈ [pB, pC],
      (calculatePlayerPerformance q matchW7).totalScore
        ≤ (calculatePlayerPerformance pA matchW7).totalScore) ∧
    (∀ q ∈ ([] : List Player), q.id ≠ pA.id) ∧
    calculateManOfTheMatch matchW7 = some pA := by
  have hpos : 0 < (calculatePlayerPerformance pA matchW7).totalScore := by
    rw [perf_pA_matchW7]; norm_num
  have hafter : ∀ q ∈ [pB, pC],
      (calculatePlayerPerformance q matchW7).totalScore
        ≤ (calculatePlayerPerformance pA matchW7).totalScore := by
    intro q hq
    rw [List.mem_cons, List.mem_singleton] at hq
    rcases hq with rfl | rfl
    · rw [perf_pB_matchW7, perf_pA_matchW7]; norm_num
    · rw [perf_pC_matchW7, perf_pA_matchW7]; norm_num
  exact ⟨rfl, rfl, hpos, fun q hq => absurd hq (List.not_mem_nil q),
    hafter, fun q hq => absurd hq (List.not_mem_nil q),
    calculateManOfTheMatch_first_strict_max matchW7 [] [pB, pC] pA rfl rfl
      hpos (fun q hq => absurd hq (List.not_mem_nil q)) hafter
      (fun q hq => absurd hq (List.not_mem_nil q))⟩

/-- A completed match in which the only delivery was three byes: the
striker `pA` appeared but scores 0, the bowler `pC` scores −10. -/
def matchX7 : Match :=
  { team1 := freshTeam [pA, pB], team2 := freshTeam [pC],
    battingTeam := { freshTeam [pA, pB] with score := 3, balls := 1 },
    bowlingTeam := freshTeam [pC],
    totalOvers := 2,
    balls :=
      [{ id := 50, overNumber := 1, runs := 3, striker := pA, bowler := pC,
         isWide := false, isNoBall := false, isBye := true, isLegBye := false,
         isWicket := false, wicketType := none, fielder := none }],
    currentStriker := some pA, currentNonStriker := some pB,
    isSecondInnings := true, firstInningsScore := 2, isCompleted := true }

/-- Player `pA` faced the bye ball but scored nothing off the bat. -/
theorem perf_pA_matchX7 :
    calculatePlayerPerformance pA matchX7 =
      { playerId := 1, battingScore := 0, bowlingScore := 0,
        fieldingScore := 0, totalScore := 0 } := by
  norm_num [calculatePlayerPerformance, perfBattingStep, perfBowlingStep,
    matchX7, freshTeam, pA, pB, pC, stats0]

/-- Player `pB` did not appear in `matchX7`. -/
theorem perf_pB_matchX7 :
    calculatePlayerPerformance pB matchX7 =
      { playerId := 2, battingScore := 0, bowlingScore := 0,
        fieldingScore := 0, totalScore := 0 } := by
  norm_num [calculatePlayerPerformance, perfBattingStep, perfBowlingStep,
    matchX7, freshTeam, pA, pB, pC, stats0]

/-- Player `pC` conceded the three byes off one legal ball (economy 18),
scoring −10. -/
theorem perf_pC_matchX7 :
    calculatePlayerPerformance pC matchX7 =
      { playerId := 3, battingScore := 0, bowlingScore := -10,
        fieldingScore := 0, totalScore := -10 } := by
  norm_num [calculatePlayerPerformance, perfBattingStep, perfBowlingStep,
    matchX7, freshTeam, pA, pB, pC, stats0]

/-- C7 counterexample: in the completed match `matchX7` the striker `pA`
appeared and attains the highest total (0, tied with `pB`, first in
roster order), so the claim demands `pA`; but every total is ≤ 0, the
positive-total filter empties the ranking, and the engine returns
`null`. -/
theorem calculateManOfTheMatch_null_despite_appearance :
    matchX7.isCompleted = true ∧
    matchX7.team1.players ++ matchX7.team2.players = [pA, pB, pC] ∧
    matchX7.balls.any (fun b => b.striker.id == pA.id) = true ∧
    (∀ q ∈ [pA, pB, pC],
      (calculatePlayerPerformance q matchX7).totalScore
        ≤ (calculatePlayerPerformance pA matchX7).totalScore) ∧
    calculateManOfTheMatch matchX7 = none := by
  refine ⟨rfl, rfl, rfl, ?_, ?_⟩
  · intro q hq
    rw [List.mem_cons, List.mem_cons, List.mem_singleton] at hq
    rcases hq with rfl | rfl | rfl
    · exact le_refl _
    · rw [perf_pB_matchX7, perf_pA_matchX7]
    · rw [perf_pC_matchX7, perf_pA_matchX7]; norm_num
  · have hroster : matchX7.team1.players ++ matchX7.team2.players
        = [pA, pB, pC] := rfl
    have hc : matchX7.isCompleted = true := rfl
    simp only [calculateManOfTheMatch, hroster, hc, Bool.not_true,
      Bool.false_eq_true, if_false, List.map_cons, List.map_nil,
      perf_pA_matchX7, perf_pB_matchX7, perf_pC_matchX7]
    norm_num [List.filter_cons, List.filter_nil, sortByTotalDesc]

end Cricket
